import Mathlib

/-!
Verification of the per-stream normalization core of `ffmpeg_normalize/_streams.py`.

The module is shallowly embedded: every definition below translates one piece of
the Python source.  dB values (Python 64-bit floats) are modelled as rationals;
where the source can meet the IEEE infinities (the loudnorm JSON report, the
astats placeholder) an explicit extended-value type is used.  Logging calls are
modelled as boolean "warned" flags carried in the results; raised exceptions are
modelled with `Except` over `NormError`, whose constructors are named after the
distinct error messages of the source (the source raises a single
`FFmpegNormalizeError` type with per-site messages; the specification groups
them into MeasurementParseError / PlannerError / configuration errors).
External collaborators (the ffmpeg subprocess, `json.loads`,
`dict_to_filter_opts` serialization) are outside the module and outside the
embedding; the functions below start from the captured text / decoded field
maps exactly where the source functions do.
-/

/-- Errors raised by the module, one constructor per raise site / message.
`noLoudnormOutput` and `wrongJsonFormat` and the two astats messages are the
spec's MeasurementParseError; `firstPassNotRun` and `unsupportedMode` are the
spec's PlannerError; `minGreaterThanMax` is the `ValueError` of `_constrain`
(the spec's configuration error). `uncaughtValueError` stands for the
`ValueError` that `float()` raises on a malformed astats capture, which the
source does not catch. -/
inductive NormError
  | noLoudnormOutput
  | wrongJsonFormat
  | noMeanVolume
  | noMaxVolume
  | uncaughtValueError
  | firstPassNotRun
  | unsupportedMode
  | minGreaterThanMax
  deriving DecidableEq, Repr

/-- `AudioStream._constrain` (lines 91-103): constrain a number between two
values.  The boolean in the result records whether the warning at line 100 was
logged (`result != number and name is not None`). -/
def constrain (number min_range max_range : ℚ) (name : Option String) :
    Except NormError (ℚ × Bool) :=
  if min_range > max_range then .error .minGreaterThanMax
  else
    let result := max (min number max_range) min_range
    .ok (result, decide (result ≠ number) && name.isSome)

/-- The caller-supplied normalization targets read through
`self.media_file.ffmpeg_normalize` (the shared `FFmpegNormalize` object):
target integrated level, target loudness range, true-peak ceiling, offset,
dual-mono flag, forced-dynamic flag, keep-input-loudness-range flag and the
optional fixed sample rate. -/
structure NormConfig where
  target_level : ℚ
  loudness_range_target : ℚ
  true_peak : ℚ
  offset : ℚ
  dual_mono : Bool
  dynamic : Bool
  keep_loudness_range_target : Bool
  sample_rate : Option ℚ
  deriving DecidableEq, Repr

/-- The nine fields of a validated loudnorm first-pass report
(`self.loudness_statistics["ebu"]` after `_parse_loudnorm_output`). -/
structure EbuStats where
  input_i : ℚ
  input_tp : ℚ
  input_lra : ℚ
  input_thresh : ℚ
  output_i : ℚ
  output_tp : ℚ
  output_lra : ℚ
  output_thresh : ℚ
  target_offset : ℚ
  deriving DecidableEq, Repr

/-- The second-pass loudnorm filter parameter set (`opts` dict, lines 344-358).
`dual_mono` records whether the `dual_mono=true` entry is present; the final
`"loudnorm=" + dict_to_filter_opts(opts)` serialization is an external
collaborator and not part of the claims. -/
structure LoudnormOpts where
  i : ℚ
  lra : ℚ
  tp : ℚ
  offset : ℚ
  measured_i : ℚ
  measured_lra : ℚ
  measured_tp : ℚ
  measured_thresh : ℚ
  linear : String
  print_format : String
  dual_mono : Bool
  deriving DecidableEq, Repr

/-- Result of `get_second_pass_opts_ebu`: the parameter set, the post-call
state of the shared targets object (`cfg`) and of the stored statistics
(`ebu`, whose `input_i` the method may cap in place), the flags of the
warnings it may log, the final dynamic-mode decision and the names of the
measured fields whose clamping logged a warning. -/
structure EbuPlanResult where
  opts : LoudnormOpts
  cfg : NormConfig
  ebu : EbuStats
  warnedCapInputI : Bool
  warnedDynamicFallback : Bool
  warnedSampleRate : Bool
  willUseDynamicMode : Bool
  clampWarned : List String
  deriving DecidableEq, Repr

/-- Python truthiness of the optional numeric `sample_rate` attribute
(`not self.ffmpeg_normalize.sample_rate`): `None` and `0` are falsy. -/
def truthyOpt (o : Option ℚ) : Bool :=
  match o with
  | none => false
  | some q => decide (q ≠ 0)

/-- `AudioStream.get_second_pass_opts_ebu` (lines 300-360).  `cfg` is the
shared normalization-targets object reached as
`self.media_file.ffmpeg_normalize`; `ebu` is `self.loudness_statistics["ebu"]`
(`none` when the first pass has not populated it); `selfSampleRate` is the
`sample_rate` attribute of the object reached as `self.ffmpeg_normalize`,
which line 336 reads (the base-constructor argument swap makes this a
different attribute path from `cfg`, so it is a separate parameter).  The
returned `cfg`/`ebu` are the post-call values of the two mutated shared
objects. -/
def get_second_pass_opts_ebu (cfg : NormConfig) (ebu : Option EbuStats)
    (selfSampleRate : Option ℚ) : Except NormError EbuPlanResult :=
  match ebu with
  | none => .error .firstPassNotRun
  | some ebu0 =>
    -- lines 310-314: cap a positive measured input loudness at 0, in place
    let warnedCap := decide (ebu0.input_i > 0)
    let ebu1 := if ebu0.input_i > 0 then { ebu0 with input_i := 0 } else ebu0
    -- line 316
    let willDyn0 := cfg.dynamic
    -- lines 318-322: keep-range override mutates the shared targets object
    let cfg1 := if cfg.keep_loudness_range_target then
        { cfg with loudness_range_target := ebu1.input_lra } else cfg
    -- lines 324-334: dynamic-mode fallback
    let fallback := decide (cfg1.loudness_range_target < ebu1.input_lra) && !willDyn0
    let willDyn1 := fallback || willDyn0
    -- lines 336-340
    let warnedSr := willDyn1 && !(truthyOpt selfSampleRate)
    do
      let (off, w1) ← constrain ebu1.target_offset (-99) 99 (some "target_offset")
      let (mi, w2) ← constrain ebu1.input_i (-99) 0 (some "input_i")
      let (mlra, w3) ← constrain ebu1.input_lra 0 99 (some "input_lra")
      let (mtp, w4) ← constrain ebu1.input_tp (-99) 99 (some "input_tp")
      let (mth, w5) ← constrain ebu1.input_thresh (-99) 0 (some "input_thresh")
      pure
        { opts :=
            { i := cfg1.target_level
              lra := cfg1.loudness_range_target
              tp := cfg1.true_peak
              offset := off
              measured_i := mi
              measured_lra := mlra
              measured_tp := mtp
              measured_thresh := mth
              -- line 353: reads the caller's forced-dynamic flag, not willDyn1
              linear := if cfg1.dynamic then "false" else "true"
              print_format := "json"
              dual_mono := cfg1.dual_mono }
          cfg := cfg1
          ebu := ebu1
          warnedCapInputI := warnedCap
          warnedDynamicFallback := fallback
          warnedSampleRate := warnedSr
          willUseDynamicMode := willDyn1
          clampWarned :=
            (if w1 then ["target_offset"] else []) ++ (if w2 then ["input_i"] else []) ++
            (if w3 then ["input_lra"] else []) ++ (if w4 then ["input_tp"] else []) ++
            (if w5 then ["input_thresh"] else []) }

/-- Decimal rendering used when interpolating the adjustment into the
`volume=...dB` filter expression; the engine's float formatting is abstracted
by the canonical rational rendering. -/
def formatDb (q : ℚ) : String := toString q

/-- Result of `get_second_pass_opts_peakrms`: the scalar gain, whether the
clipping warning of lines 385-390 was logged, and the returned volume filter
expression. -/
structure AdjustResult where
  adjustment : ℚ
  clipWarned : Bool
  filter : String
  deriving DecidableEq, Repr

/-- `AudioStream.get_second_pass_opts_peakrms` (lines 362-392), for populated
mean/max statistics (`mean_db`, `max_db` finite). -/
def get_second_pass_opts_peakrms (normalization_type : String)
    (target_level mean_db max_db : ℚ) : Except NormError AdjustResult :=
  if normalization_type = "peak" then
    let adjustment := 0 + target_level - max_db
    .ok { adjustment := adjustment,
          clipWarned := decide (max_db + adjustment > 0),
          filter := "volume=" ++ formatDb adjustment ++ "dB" }
  else if normalization_type = "rms" then
    let adjustment := target_level - mean_db
    .ok { adjustment := adjustment,
          clipWarned := decide (max_db + adjustment > 0),
          filter := "volume=" ++ formatDb adjustment ++ "dB" }
  else .error .unsupportedMode

/-- `MediaStream.__init__` (lines 13-24): the base constructor assigns its
first positional argument to `self.ffmpeg_normalize` and its second to
`self.media_file`.  The held values are opaque (`F`, `M`). -/
structure MediaStreamObj (F M : Type) where
  ffmpeg_normalize : F
  media_file : M
  stream_type : String
  stream_id : ℕ

def mediaStreamInit (F M : Type) (ffmpeg_normalize : F) (media_file : M)
    (stream_type : String) (stream_id : ℕ) : MediaStreamObj F M :=
  { ffmpeg_normalize := ffmpeg_normalize, media_file := media_file,
    stream_type := stream_type, stream_id := stream_id }

/-- `VideoStream.__init__` (lines 34-38): forwards its two object arguments to
the base constructor in reversed positional order. -/
def videoStreamInit (F M : Type) (ffmpeg_normalize : F) (media_file : M)
    (stream_id : ℕ) : MediaStreamObj M F :=
  mediaStreamInit M F media_file ffmpeg_normalize "video" stream_id

/-- `SubtitleStream.__init__` (lines 41-45): same reversed forwarding. -/
def subtitleStreamInit (F M : Type) (ffmpeg_normalize : F) (media_file : M)
    (stream_id : ℕ) : MediaStreamObj M F :=
  mediaStreamInit M F media_file ffmpeg_normalize "subtitle" stream_id

/-- `AudioStream.__init__` (lines 48-84): base fields plus the unset loudness
statistics, the optional sample rate / bit depth / duration, and the
short-duration warning of lines 75-84.  That warning reads
`self.ffmpeg_normalize.normalization_type`, which after the swapped base call
is an attribute of the `media_file` argument; the dynamic attribute access is
supplied as `normalization_type_of`. -/
structure AudioStreamObj (F M : Type) where
  base : MediaStreamObj M F
  loudness_ebu : Option EbuStats
  loudness_mean : Option ℚ
  loudness_max : Option ℚ
  sample_rate : Option ℚ
  bit_depth : Option ℕ
  duration : Option ℚ
  warnedShortDuration : Bool

def audioStreamInit (F M : Type) (normalization_type_of : M → String)
    (ffmpeg_normalize : F) (media_file : M) (stream_id : ℕ)
    (sample_rate : Option ℚ) (bit_depth : Option ℕ) (duration : Option ℚ) :
    AudioStreamObj F M :=
  { base := mediaStreamInit M F media_file ffmpeg_normalize "audio" stream_id
    loudness_ebu := none
    loudness_mean := none
    loudness_max := none
    sample_rate := sample_rate
    bit_depth := bit_depth
    duration := duration
    warnedShortDuration :=
      (normalization_type_of media_file == "ebu") &&
        (match duration with
         | none => false
         | some d => decide (d ≠ 0) && decide (d ≤ 3)) }

/-- The value domain of Python `float()` results: finite doubles (as
rationals), the two infinities, and NaN. -/
inductive PyF
  | finite (q : ℚ)
  | pinf
  | ninf
  | nan
  deriving DecidableEq, Repr

def PyF.negate : PyF → PyF
  | .finite q => .finite (-q)
  | .pinf => .ninf
  | .ninf => .pinf
  | .nan => .nan

/-- Numeric value of a 0-9 digit character. -/
def digitVal (c : Char) : ℕ := c.toNat - 48

def digitsToNat (cs : List Char) : ℕ :=
  cs.foldl (fun a c => a * 10 + digitVal c) 0

/-- Unsigned decimal literal accepted by Python `float()`: digits with an
optional fractional part (`"12"`, `"12."`, `".5"`, `"12.5"`); exponents and
digit-group underscores are not exercised by this module's inputs and are
omitted. -/
def parseDecimal (cs : List Char) : Option ℚ :=
  match cs.span Char.isDigit with
  | (ip, rest) =>
    match rest with
    | [] => if ip.isEmpty then none else some ((digitsToNat ip : ℚ))
    | '.' :: fp =>
      if fp.all Char.isDigit && !(ip.isEmpty && fp.isEmpty) then
        some ((digitsToNat ip : ℚ) + (digitsToNat fp : ℚ) / (10 : ℚ) ^ fp.length)
      else none
    | _ => none

/-- Unsigned body of Python `float(str)`: case-insensitive `inf` / `infinity`
/ `nan`, else a decimal literal. -/
def parseUnsigned (cs : List Char) : Option PyF :=
  let lower := cs.map Char.toLower
  if lower = "inf".toList ∨ lower = "infinity".toList then some .pinf
  else if lower = "nan".toList then some .nan
  else (parseDecimal cs).map .finite

/-- Python `float(str)` (an external builtin the source calls): optional sign
followed by the unsigned body; `none` models the `ValueError`. -/
def parsePyFloat (s : String) : Option PyF :=
  match s.toList with
  | '+' :: rest => parseUnsigned rest
  | '-' :: rest => (parseUnsigned rest).map PyF.negate
  | cs => parseUnsigned cs

/-- A parsed astats statistic: a finite dB value or negative infinity (the
`"-"` placeholder). -/
inductive Vol
  | finite (q : ℚ)
  | negInf
  deriving DecidableEq, Repr

/-- Character class of the regex captures `([\-\d\.]+)` in `parse_astats`. -/
def isClassChar (c : Char) : Bool := c == '-' || c == '.' || c.isDigit

/-- Greedy capture of the `[\-\d\.]+` group: the maximal run of class
characters. -/
def takeClass (cs : List Char) : List Char := cs.takeWhile isClassChar

/-- Whether the regex `<label>([\-\d\.]+)` matches at the head of `cs`: the
literal label is a prefix and at least one class character follows. -/
def matchAt (label cs : List Char) : Bool :=
  label.isPrefixOf cs && !(takeClass (List.drop label.length cs)).isEmpty

/-- First match of `re.findall(label + "([\-\d\.]+)", text)`: scan positions
left to right and return the first greedy capture. -/
def reFindFirst (label : List Char) : List Char → Option (List Char)
  | [] => none
  | c :: rest =>
    if matchAt label (c :: rest) then some (takeClass (List.drop label.length (c :: rest)))
    else reFindFirst label rest

def rmsLabel : List Char := "RMS level dB: ".toList

def peakLabel : List Char := "Peak level dB: ".toList

/-- Conversion applied to a capture (lines 179-182 / 190-193): the `"-"`
placeholder becomes negative infinity, anything else goes through `float()`
(whose failure the source does not catch).  Class characters can never spell
`inf`/`nan`, so a successful parse is finite. -/
def astatsVal (cap : List Char) : Option Vol :=
  if cap = ['-'] then some .negInf
  else
    match parsePyFloat (String.mk cap) with
    | some (.finite q) => some (.finite q)
    | _ => none

/-- `AudioStream.parse_astats` (lines 177-197), starting from the captured
command output text: first capture of the RMS label (error if the label never
matches), then first capture of the peak label. -/
def parseAstats (out : List Char) : Except NormError (Vol × Vol) :=
  match reFindFirst rmsLabel out with
  | none => .error .noMeanVolume
  | some cap1 =>
    match astatsVal cap1 with
    | none => .error .uncaughtValueError
    | some mean =>
      match reFindFirst peakLabel out with
      | none => .error .noMaxVolume
      | some cap2 =>
        match astatsVal cap2 with
        | none => .error .uncaughtValueError
        | some mx => .ok (mean, mx)

/-- Python `str.startswith` as used in `_parse_loudnorm_output`. -/
def pyStartsWith (s p : String) : Bool := p.toList.isPrefixOf s.toList

/-- Line test `line.startswith("[Parsed_loudnorm")` (line 255). -/
def isHeaderLine (l : String) : Bool := pyStartsWith l "[Parsed_loudnorm"

/-- Line test `line.startswith("\x7d")` (line 258). -/
def isCloseLine (l : String) : Bool := pyStartsWith l "\x7d"

/-- The scanning loop of `_parse_loudnorm_output` (lines 252-260): `i` is the
index of the current line, `st` the current value of `loudnorm_start` (`none`
for the initial falsy `False`).  Every header line overwrites `loudnorm_start`
with the next index; the first closing-brace-prefixed line seen while
`loudnorm_start` is set ends the scan with `loudnorm_end = index + 1`. -/
def scanLoudnorm : List String → ℕ → Option ℕ → Option (ℕ × ℕ)
  | [], _, _ => none
  | l :: rest, i, st =>
    if isHeaderLine l then scanLoudnorm rest (i + 1) (some (i + 1))
    else
      match st with
      | some s => if isCloseLine l then some (s, i + 1) else scanLoudnorm rest (i + 1) (some s)
      | none => scanLoudnorm rest (i + 1) none

/-- `_parse_loudnorm_output` up to the JSON decoder (lines 250-269): the slice
`output_lines[loudnorm_start:loudnorm_end]` handed to `json.loads`, or the
"no loudnorm-related output found" error when the bounds are not both set. -/
def loudnormJsonSlice (lines : List String) : Except NormError (List String) :=
  match scanLoudnorm lines 0 none with
  | none => .error .noLoudnormOutput
  | some (s, e) => .ok ((lines.drop s).take (e - s))

/-- C4's claimed boundary rule, written from the claim: the JSON body starts
at the line after the first header line and ends at the first subsequent line
that is exactly a closing brace, inclusive; error when either is missing. -/
def specJsonSliceClaimed (lines : List String) : Except NormError (List String) :=
  match (List.range lines.length).find? (fun h => isHeaderLine (lines.getD h "")) with
  | none => .error .noLoudnormOutput
  | some h =>
    match (List.range lines.length).find?
        (fun j => decide (h < j) && (lines.getD j "" == "\x7d")) with
    | none => .error .noLoudnormOutput
    | some j => .ok ((lines.drop (h + 1)).take (j + 1 - (h + 1)))

/-- Index of the first line that begins with a closing brace and is preceded
by some header line. -/
def closeAfterHeaderIdx (lines : List String) : Option ℕ :=
  (List.range lines.length).find? fun j =>
    isCloseLine (lines.getD j "") &&
      (List.range j).any fun h => isHeaderLine (lines.getD h "")

/-- Greatest header-line index strictly before `j`. -/
def lastHeaderBefore (lines : List String) (j : ℕ) : Option ℕ :=
  ((List.range j).filter fun h => isHeaderLine (lines.getD h "")).getLast?

/-- The amended boundary rule: the body ends at the first line *beginning*
with a closing brace that follows some header line (that line included), and
starts after the *last* header line preceding it; error when no header line
exists or no closing-brace-prefixed line follows one. -/
def specJsonSliceAmended (lines : List String) : Except NormError (List String) :=
  match closeAfterHeaderIdx lines with
  | none => .error .noLoudnormOutput
  | some j =>
    match lastHeaderBefore lines j with
    | none => .error .noLoudnormOutput
    | some h => .ok ((lines.drop (h + 1)).take (j + 1 - (h + 1)))

/-- `closeAfterHeaderIdx` generalized over whether a header was already seen
before the scanned lines. -/
def closeIdxAux (ls : List String) (armed : Bool) : Option ℕ :=
  (List.range ls.length).find? fun j =>
    isCloseLine (ls.getD j "") &&
      (armed || (List.range j).any fun h => isHeaderLine (ls.getD h ""))

/-- Declarative description of `scanLoudnorm` on a suffix starting at absolute
index `i` with pending start `st`. -/
def scanSpecAux (ls : List String) (i : ℕ) (st : Option ℕ) : Option (ℕ × ℕ) :=
  match closeIdxAux ls st.isSome with
  | none => none
  | some j =>
    some ((match lastHeaderBefore ls j with
           | some h => i + h + 1
           | none => st.getD 0), i + j + 1)

/-- A decoded JSON value as `json.loads` can produce it: number, string,
boolean, null, or a composite (array/object), the last three included because
`float()` accepts booleans and rejects null/composites. -/
inductive JVal
  | num (q : ℚ)
  | str (s : String)
  | jbool (b : Bool)
  | jnull
  | composite
  deriving DecidableEq, Repr

/-- Python `float(value)` on a decoded JSON value: numbers pass through,
strings are parsed, booleans coerce to 0/1, null and composites raise. -/
def jvalToFloat : JVal → Option PyF
  | .num q => some (.finite q)
  | .str s => parsePyFloat s
  | .jbool b => some (.finite (if b then 1 else 0))
  | .jnull => none
  | .composite => none

/-- A value stored in the loudnorm stats dict: either still the raw decoded
JSON value, or the number the validation loop wrote back (line 287/289/292). -/
inductive PVal
  | raw (v : JVal)
  | num (f : PyF)
  deriving DecidableEq, Repr

/-- `float()` of a stored dict value (an already-numeric value is itself). -/
def pvalFloat : PVal → Option PyF
  | .raw v => jvalToFloat v
  | .num f => some f

/-- The decoded loudnorm stats object, as a key-value list. -/
abbrev LoudnormDict := List (String × PVal)

def lookupD : LoudnormDict → String → Option PVal
  | [], _ => none
  | (a, b) :: d, k => if a == k then some b else lookupD d k

def updateD : LoudnormDict → String → PVal → LoudnormDict
  | [], _, _ => []
  | (a, b) :: d, k, v => (if a == k then (k, v) else (a, b)) :: updateD d k v

/-- The per-field rule of lines 285-292: negative infinity becomes −99,
positive infinity becomes 0, anything else (finite, or NaN, which compares
false to both infinities) is stored as the parsed float. -/
def validateField : PyF → PyF
  | .ninf => .finite (-99)
  | .pinf => .finite 0
  | f => f

/-- One iteration of the loop of lines 274-292 for key `k`: a missing key
(`KeyError`) or unparsable value (`ValueError`) escapes to the
`except Exception` handler of line 295 and becomes the "wrong JSON format"
MeasurementParseError; otherwise the converted float is written back. -/
def validateStep (d : LoudnormDict) (k : String) : Except NormError LoudnormDict :=
  match lookupD d k with
  | none => .error .wrongJsonFormat
  | some v =>
    match pvalFloat v with
    | none => .error .wrongJsonFormat
    | some f => .ok (updateD d k (.num (validateField f)))

/-- The nine required fields, in the loop order of lines 274-284. -/
def loudnormKeys : List String :=
  ["input_i", "input_tp", "input_lra", "input_thresh",
   "output_i", "output_tp", "output_lra", "output_thresh", "target_offset"]

/-- The validation loop of `_parse_loudnorm_output` (lines 274-294) over a
successfully decoded stats object. -/
def validateLoudnorm (d : LoudnormDict) : Except NormError LoudnormDict :=
  loudnormKeys.foldlM validateStep d

/-- Witness dictionary for C3: `input_i` given as the string `"-inf"`,
`input_tp` as the string `"inf"`, the rest as plain numbers or numeric
strings. -/
def sampleLoudnormDict : LoudnormDict :=
  [("input_i", .raw (.str "-inf")), ("input_tp", .raw (.str "inf")),
   ("input_lra", .raw (.num 7)), ("input_thresh", .raw (.num (-33))),
   ("output_i", .raw (.str "-22")), ("output_tp", .raw (.num (-4))),
   ("output_lra", .raw (.num 6)), ("output_thresh", .raw (.num (-32))),
   ("target_offset", .raw (.num 1))]

/-- Witness dictionary for C9: a well-formed report with `input_lra` absent. -/
def sampleMissingLraDict : LoudnormDict :=
  [("input_i", .raw (.num (-23))), ("input_tp", .raw (.num (-5))),
   ("input_thresh", .raw (.num (-33))),
   ("output_i", .raw (.num (-22))), ("output_tp", .raw (.num (-4))),
   ("output_lra", .raw (.num 6)), ("output_thresh", .raw (.num (-32))),
   ("target_offset", .raw (.num 1))]

lemma constrain_ok_of_le (number min_range max_range : ℚ) (name : Option String)
    (h : min_range ≤ max_range) :
    constrain number min_range max_range name =
      .ok (max (min number max_range) min_range,
           decide (max (min number max_range) min_range ≠ number) && name.isSome) := by
  unfold constrain
  rw [if_neg (not_lt.mpr h)]

/-- C7: for every value and every inclusive range with min ≤ max, `_constrain`
returns `max(min(value, max), min)`; an already-in-range value is returned
unchanged with no warning logged; a changed value (with a field name supplied)
is logged at warning level; min > max raises the programming error. -/
theorem constrain_clamp_spec (number min_range max_range : ℚ) (name : Option String) :
    (min_range ≤ max_range →
      constrain number min_range max_range name =
        .ok (max (min number max_range) min_range,
             decide (max (min number max_range) min_range ≠ number) && name.isSome))
    ∧ (min_range ≤ max_range → min_range ≤ number → number ≤ max_range →
      constrain number min_range max_range name = .ok (number, false))
    ∧ (min_range ≤ max_range → max (min number max_range) min_range ≠ number →
        name.isSome = true →
      constrain number min_range max_range name =
        .ok (max (min number max_range) min_range, true))
    ∧ (min_range > max_range →
      constrain number min_range max_range name = .error .minGreaterThanMax) := by
  refine ⟨fun h => constrain_ok_of_le _ _ _ _ h, fun h h1 h2 => ?_, fun h hne hname => ?_, fun h => ?_⟩
  · rw [constrain_ok_of_le _ _ _ _ h, min_eq_left h2, max_eq_left h1]
    simp
  · rw [constrain_ok_of_le _ _ _ _ h, hname]
    simp [hne]
  · unfold constrain
    rw [if_pos h]

/-- Witness for C7: the spec's example, clamping `target_offset = 150` into
`[-99, 99]` yields `99` with a logged warning. -/
theorem constrain_clamp_spec_witness :
    constrain 150 (-99) 99 (some "target_offset") = .ok (99, true) := by
  have h := (constrain_clamp_spec 150 (-99) 99 (some "target_offset")).1 (by norm_num)
  rw [h]
  norm_num

/-- C8: invoking the EBU second-pass planner before the first pass populated
`ebu_report` raises the "first pass not run" planner error. -/
theorem ebu_planner_requires_first_pass (cfg : NormConfig) (sr : Option ℚ) :
    get_second_pass_opts_ebu cfg none sr = .error .firstPassNotRun := rfl

/-- C1: divergence of the source from the specified dynamic-mode fallback.
With target loudness range 7, measured input loudness range 12, dynamic mode
not forced and no keep-range flag, the planner logs the fallback warning and
sets its internal dynamic-mode flag, yet the emitted parameter set carries
`linear="true"`, because line 353 reads the caller's original forced-dynamic
flag instead of the final dynamic-mode decision. -/
theorem ebu_fallback_emits_linear_true :
    (get_second_pass_opts_ebu
      { target_level := -23, loudness_range_target := 7, true_peak := -2,
        offset := 0, dual_mono := false, dynamic := false,
        keep_loudness_range_target := false, sample_rate := some 48000 }
      (some { input_i := -20, input_tp := -5, input_lra := 12,
              input_thresh := -30, output_i := -22, output_tp := -4,
              output_lra := 11, output_thresh := -29, target_offset := 1 })
      (some 48000)).map
        (fun r => (r.warnedDynamicFallback, r.willUseDynamicMode, r.opts.linear)) =
      .ok (true, true, "true") := by
  rfl

/-- C2: with the keep-input-loudness-range flag set, the planner overwrites the
shared targets object's loudness-range target with the measured input loudness
range before the dynamic-mode comparison (so the fallback never fires), the
`lra` entry of the returned parameter set equals the measured input loudness
range, and the mutation persists in the post-call shared targets object. -/
theorem ebu_keep_range_overrides_target (cfg : NormConfig) (st : EbuStats)
    (sr : Option ℚ) (h : cfg.keep_loudness_range_target = true) :
    ∃ r, get_second_pass_opts_ebu cfg (some st) sr = .ok r ∧
      r.cfg.loudness_range_target = st.input_lra ∧
      r.opts.lra = st.input_lra ∧
      r.warnedDynamicFallback = false := by
  unfold get_second_pass_opts_ebu
  rw [h]
  by_cases hcap : st.input_i > 0 <;>
    simp only [if_pos, if_neg, hcap, if_true, if_false, ite_true, ite_false,
      constrain_ok_of_le _ _ _ _ (by norm_num : (-99 : ℚ) ≤ 99),
      constrain_ok_of_le _ _ _ _ (by norm_num : (-99 : ℚ) ≤ 0),
      constrain_ok_of_le _ _ _ _ (by norm_num : (0 : ℚ) ≤ 99), lt_irrefl,
      decide_False, Bool.false_and, bind, Except.bind, pure, Except.pure] <;>
    exact ⟨_, rfl, rfl, rfl, by simp⟩

/-- Witness for C2: the spec's example, keep-range enabled with measured input
range 9 and caller target 7 yields effective `lra = 9` in both the parameter
set and the post-call shared targets object. -/
theorem ebu_keep_range_overrides_target_witness :
    ∃ r, get_second_pass_opts_ebu
        { target_level := -23, loudness_range_target := 7, true_peak := -2,
          offset := 0, dual_mono := false, dynamic := false,
          keep_loudness_range_target := true, sample_rate := none }
        (some { input_i := -20, input_tp := -5, input_lra := 9,
                input_thresh := -30, output_i := -22, output_tp := -4,
                output_lra := 8, output_thresh := -29, target_offset := 0 })
        none = .ok r ∧
      r.cfg.loudness_range_target = 9 ∧ r.opts.lra = 9 ∧
      r.warnedDynamicFallback = false :=
  ebu_keep_range_overrides_target _ _ _ rfl

/-- C6: with populated statistics, peak mode returns gain `target − max_db`,
RMS mode returns `target − mean_db`, any other mode raises the planner error;
the clipping warning is logged exactly when `max_db + adjustment > 0` and the
gain is still returned, serialized as `volume=<adjustment>dB`. -/
theorem peakrms_adjustment_spec (normalization_type : String)
    (target_level mean_db max_db : ℚ) :
    (normalization_type = "peak" →
      get_second_pass_opts_peakrms normalization_type target_level mean_db max_db =
        .ok { adjustment := target_level - max_db,
              clipWarned := decide (max_db + (target_level - max_db) > 0),
              filter := "volume=" ++ formatDb (target_level - max_db) ++ "dB" })
    ∧ (normalization_type = "rms" →
      get_second_pass_opts_peakrms normalization_type target_level mean_db max_db =
        .ok { adjustment := target_level - mean_db,
              clipWarned := decide (max_db + (target_level - mean_db) > 0),
              filter := "volume=" ++ formatDb (target_level - mean_db) ++ "dB" })
    ∧ (normalization_type ≠ "peak" → normalization_type ≠ "rms" →
      get_second_pass_opts_peakrms normalization_type target_level mean_db max_db =
        .error .unsupportedMode) := by
  refine ⟨fun h => ?_, fun h => ?_, fun h1 h2 => ?_⟩
  · unfold get_second_pass_opts_peakrms
    rw [if_pos h, zero_add]
  · unfold get_second_pass_opts_peakrms
    rw [if_neg (by rw [h]; decide), if_pos h]
  · unfold get_second_pass_opts_peakrms
    rw [if_neg h1, if_neg h2]

/-- Witness for C6: the spec's example, peak mode with `max_db = -3` and target
level `-6` gives adjustment `-3` dB with no clipping warning. -/
theorem peakrms_adjustment_spec_witness :
    get_second_pass_opts_peakrms "peak" (-6) (-10) (-3) =
      .ok { adjustment := -3, clipWarned := false,
            filter := "volume=" ++ formatDb (-3) ++ "dB" } := by
  have h := (peakrms_adjustment_spec "peak" (-6) (-10) (-3)).1 rfl
  rw [h]
  norm_num

/-- C10: every stream constructor forwards its two object arguments to the
base constructor in reversed order, so the constructed stream's `media_file`
field holds the value passed as `ffmpeg_normalize` and its `ffmpeg_normalize`
field holds the value passed as `media_file`. -/
theorem stream_constructors_swap_base_args (F M : Type)
    (normalization_type_of : M → String) (fn : F) (mf : M) (sid : ℕ)
    (sr : Option ℚ) (bd : Option ℕ) (dur : Option ℚ) :
    ((videoStreamInit F M fn mf sid).media_file = fn ∧
      (videoStreamInit F M fn mf sid).ffmpeg_normalize = mf)
    ∧ ((subtitleStreamInit F M fn mf sid).media_file = fn ∧
      (subtitleStreamInit F M fn mf sid).ffmpeg_normalize = mf)
    ∧ ((audioStreamInit F M normalization_type_of fn mf sid sr bd dur).base.media_file = fn ∧
      (audioStreamInit F M normalization_type_of fn mf sid sr bd dur).base.ffmpeg_normalize = mf) :=
  ⟨⟨rfl, rfl⟩, ⟨rfl, rfl⟩, rfl, rfl⟩

lemma isPrefixOf_self_append (l t : List Char) : l.isPrefixOf (l ++ t) = true := by
  induction l with
  | nil => simp [List.isPrefixOf]
  | cons c cs ih => simp [List.isPrefixOf, ih]

/-- The findall scan skips every non-matching position and returns the greedy
capture at the first matching one. -/
lemma reFindFirst_append_of_matchAt (label : List Char) (hlab : label ≠ []) :
    ∀ (pre rest : List Char),
      (∀ n, n < pre.length → matchAt label (List.drop n (pre ++ rest)) = false) →
      matchAt label rest = true →
      reFindFirst label (pre ++ rest) = some (takeClass (List.drop label.length rest)) := by
  intro pre
  induction pre with
  | nil =>
    intro rest _ hm
    cases rest with
    | nil =>
      exfalso
      cases label with
      | nil => exact hlab rfl
      | cons a l => simp [matchAt, List.isPrefixOf] at hm
    | cons c cs =>
      simp [reFindFirst, hm]
  | cons p pre' ih =>
    intro rest hpre hm
    have h0 : matchAt label (p :: (pre' ++ rest)) = false := by
      have h := hpre 0 (Nat.succ_pos _)
      simpa using h
    rw [List.cons_append, reFindFirst, h0]
    simp only [Bool.false_eq_true, if_false]
    exact ih rest
      (fun n hn => by
        have h := hpre (n + 1) (Nat.succ_lt_succ hn)
        simpa [List.drop_succ_cons] using h)
      hm

lemma matchAt_label_append (label v post : List Char) (hv : takeClass (v ++ post) = v)
    (hne : v ≠ []) : matchAt label (label ++ (v ++ post)) = true := by
  unfold matchAt
  rw [isPrefixOf_self_append, List.drop_left, hv]
  cases v with
  | nil => exact absurd rfl hne
  | cons a l => simp

/-- C5: for every astats output text, if the RMS and peak labels each occur
followed by a run of value characters (with the stated occurrence being the
first matching one), parsing returns the converted first captures — a float
for a numeric capture, negative infinity for the `"-"` placeholder; if the RMS
label never matches, parsing fails with the mean-volume error; if the peak
label never matches, parsing fails with the max-volume error. -/
theorem astats_parse_spec (out : List Char) :
    (∀ (pre1 v1 post1 pre2 v2 post2 : List Char) (w1 w2 : Vol),
      out = pre1 ++ (rmsLabel ++ (v1 ++ post1)) →
      (∀ n, n < pre1.length → matchAt rmsLabel (List.drop n out) = false) →
      takeClass (v1 ++ post1) = v1 →
      out = pre2 ++ (peakLabel ++ (v2 ++ post2)) →
      (∀ n, n < pre2.length → matchAt peakLabel (List.drop n out) = false) →
      takeClass (v2 ++ post2) = v2 →
      astatsVal v1 = some w1 → astatsVal v2 = some w2 →
      parseAstats out = .ok (w1, w2))
    ∧ (reFindFirst rmsLabel out = none → parseAstats out = .error .noMeanVolume)
    ∧ (∀ cap w, reFindFirst rmsLabel out = some cap → astatsVal cap = some w →
        reFindFirst peakLabel out = none → parseAstats out = .error .noMaxVolume) := by
  refine ⟨?_, ?_, ?_⟩
  · intro pre1 v1 post1 pre2 v2 post2 w1 w2 h1 hpre1 hv1 h2 hpre2 hv2 hq1 hq2
    have hne1 : v1 ≠ [] := by
      intro h
      rw [h, (by rfl : astatsVal ([] : List Char) = none)] at hq1
      exact Option.noConfusion hq1
    have hne2 : v2 ≠ [] := by
      intro h
      rw [h, (by rfl : astatsVal ([] : List Char) = none)] at hq2
      exact Option.noConfusion hq2
    have hr1 : reFindFirst rmsLabel out = some v1 := by
      rw [h1]
      rw [reFindFirst_append_of_matchAt rmsLabel (by decide) pre1 _
        (fun n hn => by rw [← h1]; exact hpre1 n hn)
        (matchAt_label_append rmsLabel v1 post1 hv1 hne1)]
      rw [List.drop_left, hv1]
    have hr2 : reFindFirst peakLabel out = some v2 := by
      rw [h2]
      rw [reFindFirst_append_of_matchAt peakLabel (by decide) pre2 _
        (fun n hn => by rw [← h2]; exact hpre2 n hn)
        (matchAt_label_append peakLabel v2 post2 hv2 hne2)]
      rw [List.drop_left, hv2]
    simp only [parseAstats, hr1, hr2, hq1, hq2]
  · intro h
    simp only [parseAstats, h]
  · intro cap w h1 hq h2
    simp only [parseAstats, h1, hq, h2]

lemma parseDecimal_eval (cs ip fp : List Char)
    (hspan : cs.span Char.isDigit = (ip, '.' :: fp))
    (hfp : fp.all Char.isDigit = true) (hne : (ip.isEmpty && fp.isEmpty) = false) :
    parseDecimal cs =
      some ((digitsToNat ip : ℚ) + (digitsToNat fp : ℚ) / (10 : ℚ) ^ fp.length) := by
  unfold parseDecimal
  rw [hspan]
  simp [hfp, hne]

lemma parseUnsigned_eval (cs : List Char)
    (h1 : ¬(cs.map Char.toLower = "inf".toList ∨ cs.map Char.toLower = "infinity".toList))
    (h2 : ¬(cs.map Char.toLower = "nan".toList)) :
    parseUnsigned cs = (parseDecimal cs).map .finite := by
  unfold parseUnsigned
  rw [if_neg h1, if_neg h2]

lemma astatsVal_of_parse (cap : List Char) (q : ℚ) (hne : cap ≠ ['-'])
    (hq : parsePyFloat (String.mk cap) = some (.finite q)) :
    astatsVal cap = some (.finite q) := by
  unfold astatsVal
  rw [if_neg hne, hq]

lemma parsePyFloat_neg_decimal (s rest : List Char) (q : ℚ)
    (h : s = '-' :: rest)
    (h1 : ¬(rest.map Char.toLower = "inf".toList ∨ rest.map Char.toLower = "infinity".toList))
    (h2 : ¬(rest.map Char.toLower = "nan".toList))
    (hd : parseDecimal rest = some q) :
    parsePyFloat (String.mk s) = some (.finite (-q)) := by
  unfold parsePyFloat
  rw [h]
  show ((parseUnsigned rest).map PyF.negate) = _
  rw [parseUnsigned_eval rest h1 h2, hd]
  rfl

/-- Witness for C5: the spec's example text yields `mean_db = -23.0`,
`max_db = -1.2`. -/
theorem astats_parse_spec_witness :
    parseAstats ("RMS level dB: -23.0\nPeak level dB: -1.2".toList) =
      .ok (.finite (-23), .finite (-(6/5))) := by
  have hd1 : parseDecimal ("23.0".toList) = some 23 := by
    rw [parseDecimal_eval _ (['2', '3']) (['0']) (by decide) (by decide) (by decide),
      (by decide : digitsToNat ['2', '3'] = 23), (by decide : digitsToNat ['0'] = 0)]
    norm_num
  have hd2 : parseDecimal ("1.2".toList) = some (6/5) := by
    rw [parseDecimal_eval _ (['1']) (['2']) (by decide) (by decide) (by decide),
      (by decide : digitsToNat ['1'] = 1), (by decide : digitsToNat ['2'] = 2)]
    norm_num
  have hq1 : astatsVal ("-23.0".toList) = some (.finite (-23)) :=
    astatsVal_of_parse _ _ (by decide)
      (parsePyFloat_neg_decimal _ ("23.0".toList) _ rfl (by decide) (by decide) hd1)
  have hq2 : astatsVal ("-1.2".toList) = some (.finite (-(6/5))) :=
    astatsVal_of_parse _ _ (by decide)
      (parsePyFloat_neg_decimal _ ("1.2".toList) _ rfl (by decide) (by decide) hd2)
  exact (astats_parse_spec ("RMS level dB: -23.0\nPeak level dB: -1.2".toList)).1
    ([] : List Char) ("-23.0".toList) ("\nPeak level dB: -1.2".toList)
    ("RMS level dB: -23.0\n".toList) ("-1.2".toList) ([] : List Char)
    (.finite (-23)) (.finite (-(6/5)))
    (by decide) (by decide) (by decide) (by decide) (by decide) (by decide)
    hq1 hq2

lemma closeIdxAux_cons (l : String) (rest : List String) (armed : Bool) :
    closeIdxAux (l :: rest) armed =
      if isCloseLine l && armed then some 0
      else (closeIdxAux rest (armed || isHeaderLine l)).map Nat.succ := by
  have hpred : ((fun j => isCloseLine ((l :: rest).getD j "") &&
        (armed || (List.range j).any fun h => isHeaderLine ((l :: rest).getD h ""))) ∘
        Nat.succ) =
      (fun j => isCloseLine (rest.getD j "") &&
        ((armed || isHeaderLine l) ||
          (List.range j).any fun h => isHeaderLine (rest.getD h ""))) := by
    funext j
    show (isCloseLine ((l :: rest).getD (Nat.succ j) "") &&
        (armed || (List.range (Nat.succ j)).any fun h => isHeaderLine ((l :: rest).getD h ""))) = _
    rw [List.getD_cons_succ, List.range_succ_eq_map]
    have hcomp : ((fun h => isHeaderLine ((l :: rest).getD h "")) ∘ Nat.succ) =
        (fun h => isHeaderLine (rest.getD h "")) := by
      funext h
      simp [Function.comp, List.getD_cons_succ]
    simp only [List.any_cons, List.any_map, Function.comp, List.getD_cons_zero,
      List.getD_cons_succ, Bool.or_assoc, hcomp]
  unfold closeIdxAux
  rw [List.length_cons, List.range_succ_eq_map]
  by_cases h0 : (isCloseLine l && armed) = true
  · rw [List.find?_cons_of_pos, if_pos h0]
    show (isCloseLine ((l :: rest).getD 0 "") &&
      (armed || (List.range 0).any fun h => isHeaderLine ((l :: rest).getD h ""))) = true
    simpa using h0
  · rw [List.find?_cons_of_neg, List.find?_map, hpred, if_neg h0]
    show ¬((isCloseLine ((l :: rest).getD 0 "") &&
      (armed || (List.range 0).any fun h => isHeaderLine ((l :: rest).getD h ""))) = true)
    simpa using h0

lemma lastHeaderBefore_zero (lines : List String) : lastHeaderBefore lines 0 = none := rfl

lemma lastHeaderBefore_cons (l : String) (rest : List String) (j : ℕ) :
    lastHeaderBefore (l :: rest) (j + 1) =
      match lastHeaderBefore rest j with
      | some h => some (h + 1)
      | none => if isHeaderLine l then some 0 else none := by
  unfold lastHeaderBefore
  rw [List.range_succ_eq_map, List.filter_cons]
  have hcomp : ((fun h => isHeaderLine ((l :: rest).getD h "")) ∘ Nat.succ) =
      (fun h => isHeaderLine (rest.getD h "")) := by
    funext h
    simp [Function.comp, List.getD_cons_succ]
  rw [List.filter_map, hcomp, List.getD_cons_zero]
  cases hM : (List.range j).filter (fun h => isHeaderLine (rest.getD h "")) with
  | nil =>
    simp only [List.map_nil]
    by_cases hl : isHeaderLine l = true
    · rw [if_pos hl]
      simp [hl]
    · rw [if_neg hl]
      simp [hl]
  | cons m ms =>
    simp only [List.map_cons]
    by_cases hl : isHeaderLine l = true
    · rw [if_pos hl, List.getLast?_cons_cons, ← List.map_cons, List.getLast?_map]
      cases hL : (m :: ms).getLast? with
      | none =>
        have hs : ((m :: ms : List ℕ).getLast?).isSome := List.getLast?_isSome.mpr (by simp)
        rw [hL] at hs
        simp at hs
      | some h => rfl
    · rw [if_neg hl, ← List.map_cons, List.getLast?_map]
      cases hL : (m :: ms).getLast? with
      | none =>
        have hs : ((m :: ms : List ℕ).getLast?).isSome := List.getLast?_isSome.mpr (by simp)
        rw [hL] at hs
        simp at hs
      | some h => rfl

lemma header_close_exclusive (l : String) (h : isHeaderLine l = true) :
    isCloseLine l = false := by
  unfold isHeaderLine isCloseLine pyStartsWith at *
  cases hl : l.toList with
  | nil =>
    rw [hl] at h
    exact absurd h (by decide)
  | cons c cs =>
    rw [hl] at h
    have h1 : ('[' :: "Parsed_loudnorm".toList).isPrefixOf (c :: cs) = true := h
    cases hpc : ('\x7d' :: ([] : List Char)).isPrefixOf (c :: cs) with
    | false => exact hpc
    | true =>
      exfalso
      simp only [List.isPrefixOf, Bool.and_eq_true, beq_iff_eq] at h1 hpc
      exact absurd (h1.1.trans hpc.1.symm) (by decide)

lemma scanLoudnorm_cons (l : String) (rest : List String) (i : ℕ) (st : Option ℕ) :
    scanLoudnorm (l :: rest) i st =
      if isHeaderLine l then scanLoudnorm rest (i + 1) (some (i + 1))
      else
        match st with
        | some s =>
          if isCloseLine l then some (s, i + 1) else scanLoudnorm rest (i + 1) (some s)
        | none => scanLoudnorm rest (i + 1) none := rfl

lemma scanLoudnorm_eq_spec (ls : List String) : ∀ (i : ℕ) (st : Option ℕ),
    scanLoudnorm ls i st = scanSpecAux ls i st := by
  induction ls with
  | nil => intro i st; rfl
  | cons l rest ih =>
    intro i st
    unfold scanSpecAux
    rw [closeIdxAux_cons]
    by_cases hh : isHeaderLine l = true
    · have hc : isCloseLine l = false := header_close_exclusive l hh
      rw [scanLoudnorm_cons, if_pos hh, ih (i + 1) (some (i + 1))]
      unfold scanSpecAux
      rw [hc, hh]
      simp only [Bool.false_and, Bool.or_true, if_false, Bool.false_eq_true,
        Option.isSome_some]
      cases hJ : closeIdxAux rest true with
      | none => simp [hJ]
      | some j =>
        simp only [hJ, Option.map_some', lastHeaderBefore_cons]
        cases hL : lastHeaderBefore rest j with
        | none =>
          rw [if_pos hh]
          simp only [Option.some.injEq, Prod.mk.injEq, Option.getD_some]
          exact ⟨trivial, by omega⟩
        | some h =>
          simp only [Option.some.injEq, Prod.mk.injEq]
          omega
    · cases st with
      | some s =>
        by_cases hcl : isCloseLine l = true
        · simp only [scanLoudnorm_cons, if_neg hh, hcl, Option.isSome_some,
            Bool.and_true, if_true, lastHeaderBefore_zero, ite_true]
          simp [lastHeaderBefore_zero]
        · simp only [scanLoudnorm_cons, if_neg hh, Option.isSome_some, Bool.and_true]
          rw [if_neg hcl, ih (i + 1) (some s)]
          unfold scanSpecAux
          rw [if_neg hcl]
          rw [(by simp [hh] : (true || isHeaderLine l) = true)]
          simp only [Option.isSome_some]
          cases hJ : closeIdxAux rest true with
          | none => simp [hJ]
          | some j =>
            simp only [hJ, Option.map_some', lastHeaderBefore_cons]
            cases hL : lastHeaderBefore rest j with
            | none =>
              rw [if_neg hh]
              simp only [Option.some.injEq, Prod.mk.injEq, Option.getD_some]
              exact ⟨trivial, by omega⟩
            | some h =>
              simp only [Option.some.injEq, Prod.mk.injEq]
              omega
      | none =>
        simp only [scanLoudnorm_cons, if_neg hh, Option.isSome_none, Bool.and_false]
        rw [ih (i + 1) none]
        unfold scanSpecAux
        rw [(by simp [hh] : (false || isHeaderLine l) = false)]
        simp only [Option.isSome_none, Bool.false_eq_true, if_false]
        cases hJ : closeIdxAux rest false with
        | none => simp [hJ]
        | some j =>
          simp only [hJ, Option.map_some', lastHeaderBefore_cons]
          cases hL : lastHeaderBefore rest j with
          | none =>
            rw [if_neg hh]
            simp only [Option.some.injEq, Prod.mk.injEq, Option.getD_none]
            exact ⟨trivial, by omega⟩
          | some h =>
            simp only [Option.some.injEq, Prod.mk.injEq]
            omega

lemma closeIdxAux_false (lines : List String) :
    closeIdxAux lines false = closeAfterHeaderIdx lines := by
  unfold closeIdxAux closeAfterHeaderIdx
  simp only [Bool.false_or]

/-- C4 (amended): the slice handed to the JSON decoder runs from the line
after the last header line up to and including the first line beginning with
a closing brace that follows some header line; if there is no header line, or
no closing-brace-prefixed line after one, the parse raises the
MeasurementParseError. -/
theorem loudnorm_slice_amended_spec (lines : List String) :
    loudnormJsonSlice lines = specJsonSliceAmended lines := by
  unfold loudnormJsonSlice specJsonSliceAmended
  rw [scanLoudnorm_eq_spec lines 0 none]
  unfold scanSpecAux
  rw [(by rfl : (none : Option ℕ).isSome = false), closeIdxAux_false]
  cases hC : closeAfterHeaderIdx lines with
  | none => rfl
  | some j =>
    have hp := List.find?_some hC
    simp only [Bool.and_eq_true, List.any_eq_true] at hp
    obtain ⟨h0, hmem, hh0⟩ := hp.2
    have hne : (List.range j).filter (fun h => isHeaderLine (lines.getD h "")) ≠ [] := by
      intro hnil
      have hm : h0 ∈ (List.range j).filter (fun h => isHeaderLine (lines.getD h "")) :=
        List.mem_filter.mpr ⟨hmem, hh0⟩
      rw [hnil] at hm
      exact List.not_mem_nil _ hm
    have hsome : (lastHeaderBefore lines j).isSome := by
      unfold lastHeaderBefore
      exact List.getLast?_isSome.mpr hne
    obtain ⟨h, hL⟩ := Option.isSome_iff_exists.mp hsome
    simp only [hL, Nat.zero_add]

/-- C4 counterexample: on the line list `["[Parsed_loudnorm", "\x7dx"]` the
claimed rule finds no line that is exactly a closing brace after the header
and so demands the MeasurementParseError, but the source accepts the line
merely *beginning* with a closing brace and hands `["\x7dx"]` to the JSON
decoder.  (A second divergence, not needed for falsity: the source re-records
the start at every header line, so the body follows the last header before
the closing line, not the first header.) -/
theorem loudnorm_slice_claim_counterexample :
    loudnormJsonSlice ["[Parsed_loudnorm", "\x7dx"] = .ok ["\x7dx"] ∧
      specJsonSliceClaimed ["[Parsed_loudnorm", "\x7dx"] =
        .error .noLoudnormOutput :=
  ⟨rfl, rfl⟩

lemma lookupD_updateD_self (d : LoudnormDict) (k : String) (v : PVal)
    (h : (lookupD d k).isSome) : lookupD (updateD d k v) k = some v := by
  induction d with
  | nil => simp [lookupD] at h
  | cons p d' ih =>
    obtain ⟨a, b⟩ := p
    by_cases hk : (a == k) = true
    · have hak : a = k := by simpa using hk
      subst hak
      rw [updateD, if_pos hk, lookupD, if_pos (by simp : (a == a) = true)]
    · rw [lookupD, if_neg hk] at h
      rw [updateD, if_neg hk, lookupD, if_neg hk]
      exact ih h

lemma lookupD_updateD_ne (d : LoudnormDict) (k k' : String) (v : PVal)
    (h : k' ≠ k) : lookupD (updateD d k v) k' = lookupD d k' := by
  induction d with
  | nil => rfl
  | cons p d' ih =>
    obtain ⟨a, b⟩ := p
    by_cases hk : (a == k) = true
    · have hak : a = k := by simpa using hk
      subst hak
      rw [updateD, if_pos hk, lookupD, lookupD,
        if_neg (by simpa using fun hc => h hc.symm : ¬(a == k') = true),
        if_neg (by simpa using fun hc => h hc.symm : ¬(a == k') = true)]
      exact ih
    · rw [updateD, if_neg hk, lookupD, lookupD]
      by_cases hk' : (a == k') = true
      · rw [if_pos hk', if_pos hk']
      · rw [if_neg hk', if_neg hk']
        exact ih

lemma foldlM_validateStep_ok_cons (d d1 : LoudnormDict) (k : String) (ks : List String)
    (h : validateStep d k = .ok d1) :
    List.foldlM validateStep d (k :: ks) = List.foldlM validateStep d1 ks := by
  rw [List.foldlM_cons, h]
  rfl

lemma foldlM_validateStep_err_cons (d : LoudnormDict) (k : String) (ks : List String)
    (e : NormError) (h : validateStep d k = .error e) :
    List.foldlM validateStep d (k :: ks) = .error e := by
  rw [List.foldlM_cons, h]
  rfl

lemma validate_go_ok : ∀ (ks : List String) (d : LoudnormDict), ks.Nodup →
    (∀ k ∈ ks, ((lookupD d k).bind pvalFloat).isSome = true) →
    ∃ d', List.foldlM validateStep d ks = .ok d' ∧
      (∀ k ∈ ks, lookupD d' k =
        ((lookupD d k).bind pvalFloat).map (fun f => PVal.num (validateField f))) ∧
      (∀ k, k ∉ ks → lookupD d' k = lookupD d k) := by
  intro ks
  induction ks with
  | nil =>
    intro d _ _
    exact ⟨d, rfl, by simp, fun k _ => rfl⟩
  | cons k0 ks' ih =>
    intro d hnd hgood
    obtain ⟨hk0, hnd'⟩ := List.nodup_cons.mp hnd
    have h0 := hgood k0 (List.mem_cons_self k0 ks')
    cases hv : lookupD d k0 with
    | none => rw [hv] at h0; simp at h0
    | some v =>
      rw [hv] at h0
      cases hf : pvalFloat v with
      | none => rw [(show (some v).bind pvalFloat = (none : Option PyF) from hf)] at h0; simp at h0
      | some f =>
        have hstep : validateStep d k0 = .ok (updateD d k0 (.num (validateField f))) := by
          unfold validateStep
          rw [hv]
          simp only [hf]
        have hpres : ∀ k', k' ≠ k0 →
            lookupD (updateD d k0 (.num (validateField f))) k' = lookupD d k' :=
          fun k' hne => lookupD_updateD_ne d k0 k' _ hne
        have hgood' : ∀ k ∈ ks', ((lookupD (updateD d k0 (.num (validateField f))) k).bind
            pvalFloat).isSome = true := by
          intro k hk
          rw [hpres k (fun hc => hk0 (hc ▸ hk))]
          exact hgood k (List.mem_cons_of_mem _ hk)
        obtain ⟨d', hfold, hin, hout⟩ := ih _ hnd' hgood'
        refine ⟨d', ?_, ?_, ?_⟩
        · rw [foldlM_validateStep_ok_cons d _ k0 ks' hstep]
          exact hfold
        · intro k hk
          rcases List.mem_cons.mp hk with hkk | hk'
          · subst hkk
            rw [hout k hk0, lookupD_updateD_self d k _ (by rw [hv]; rfl), hv]
            rw [(show (some v).bind pvalFloat = some f from hf)]
            rfl
          · rw [hin k hk', hpres k (fun hc => hk0 (hc ▸ hk'))]
        · intro k hk
          have hne : k ≠ k0 := fun hc => hk (hc ▸ List.mem_cons_self k0 ks')
          rw [hout k (fun hc => hk (List.mem_cons_of_mem _ hc)), hpres k hne]

lemma validate_go_bad : ∀ (ks : List String) (d : LoudnormDict),
    (∃ k ∈ ks, ((lookupD d k).bind pvalFloat) = none) →
    List.foldlM validateStep d ks = .error .wrongJsonFormat := by
  intro ks
  induction ks with
  | nil =>
    rintro d ⟨k, hk, -⟩
    exact absurd hk (List.not_mem_nil k)
  | cons k0 ks' ih =>
    rintro d ⟨k, hk, hbad⟩
    cases hv : lookupD d k0 with
    | none =>
      exact foldlM_validateStep_err_cons d k0 ks' _ (by unfold validateStep; rw [hv])
    | some v =>
      cases hf : pvalFloat v with
      | none =>
        exact foldlM_validateStep_err_cons d k0 ks' _ (by unfold validateStep; rw [hv]; simp only [hf])
      | some f =>
        have hstep : validateStep d k0 = .ok (updateD d k0 (.num (validateField f))) := by
          unfold validateStep
          rw [hv]
          simp only [hf]
        have hne : k ≠ k0 := by
          intro hc
          subst hc
          rw [hv] at hbad
          rw [(show (some v).bind pvalFloat = some f from hf)] at hbad
          exact Option.noConfusion hbad
        rcases List.mem_cons.mp hk with hkk | hk'
        · exact absurd hkk hne
        · rw [foldlM_validateStep_ok_cons d _ k0 ks' hstep]
          exact ih _ ⟨k, hk', by rw [lookupD_updateD_ne d k0 k _ hne]; exact hbad⟩

/-- C3: for every decoded field-map in which each of the nine required fields
is present and parses as a float, validation succeeds and stores, for each
field independently, `validateField` of the parsed value — −99 for negative
infinity, 0 for positive infinity, the parsed float unchanged otherwise,
whether the raw value was a number or a string; and any required field whose
present value cannot be parsed as a float makes validation raise the
MeasurementParseError. -/
theorem loudnorm_validation_per_field (d : LoudnormDict) :
    ((∀ k ∈ loudnormKeys, ((lookupD d k).bind pvalFloat).isSome = true) →
      ∃ d', validateLoudnorm d = .ok d' ∧
        ∀ k ∈ loudnormKeys, lookupD d' k =
          ((lookupD d k).bind pvalFloat).map (fun f => PVal.num (validateField f)))
    ∧ ((∃ k ∈ loudnormKeys, ∃ v, lookupD d k = some v ∧ pvalFloat v = none) →
      validateLoudnorm d = .error .wrongJsonFormat) := by
  constructor
  · intro hgood
    obtain ⟨d', h1, h2, -⟩ := validate_go_ok loudnormKeys d (by decide) hgood
    exact ⟨d', h1, h2⟩
  · rintro ⟨k, hk, v, hv, hf⟩
    refine validate_go_bad loudnormKeys d ⟨k, hk, ?_⟩
    rw [hv]
    exact (show (some v).bind pvalFloat = (none : Option PyF) from hf)

/-- Witness for C3: on the sample report the validation succeeds and each
field holds the per-field rule's result (in particular `-inf` becomes −99 and
`inf` becomes 0). -/
theorem loudnorm_validation_per_field_witness :
    ∃ d', validateLoudnorm sampleLoudnormDict = .ok d' ∧
      ∀ k ∈ loudnormKeys, lookupD d' k =
        ((lookupD sampleLoudnormDict k).bind pvalFloat).map
          (fun f => PVal.num (validateField f)) :=
  (loudnorm_validation_per_field sampleLoudnormDict).1 (by decide)

/-- C9: for every decoded field-map lacking one of the nine required fields,
validation raises the MeasurementParseError (the `KeyError` of the missing
field is caught and wrapped); the field is never defaulted. -/
theorem loudnorm_validation_missing_field (d : LoudnormDict)
    (h : ∃ k ∈ loudnormKeys, lookupD d k = none) :
    validateLoudnorm d = .error .wrongJsonFormat := by
  obtain ⟨k, hk, hv⟩ := h
  refine validate_go_bad loudnormKeys d ⟨k, hk, ?_⟩
  rw [hv]
  rfl

/-- Witness for C9: the report missing `input_lra` raises the
MeasurementParseError. -/
theorem loudnorm_validation_missing_field_witness :
    validateLoudnorm sampleMissingLraDict = .error .wrongJsonFormat :=
  loudnorm_validation_missing_field sampleMissingLraDict
    ⟨"input_lra", by decide, by decide⟩
